import Mathlib

/-!
Verification of the augment-vip telemetry-identifier reset tool.

The definitions below are a shallow embedding of `src/main.rs`:
pure computations (base64 decoding of the obfuscated constants, hex
formatting of SHA-256 digests, JSON map updates) are translated as Lean
functions; filesystem- and database-touching code is translated as
functions over explicit environment parameters (existence predicates,
row maps, step outcomes) that additionally return a trace of the
mutating actions they attempt.  Machine bytes and 32-bit words are `Nat`
with explicit `% 256` / `% 2 ^ 32`.
-/

namespace AugmentVip

/-! ## Base64 decoding

Models `base64::engine::general_purpose::STANDARD.decode` (standard
alphabet, trailing `=` padding stripped) followed by
`String::from_utf8`.  The source only ever decodes fixed ASCII
constants, so `from_utf8` is modelled on ASCII content (bytes ≥ 128
yield `none`). -/

def b64CharVal (c : Char) : Option Nat :=
  if 65 ≤ c.toNat ∧ c.toNat ≤ 90 then some (c.toNat - 65)
  else if 97 ≤ c.toNat ∧ c.toNat ≤ 122 then some (c.toNat - 97 + 26)
  else if 48 ≤ c.toNat ∧ c.toNat ≤ 57 then some (c.toNat - 48 + 52)
  else if c = '+' then some 62
  else if c = '/' then some 63
  else none

/-- Bit-accumulator fold turning a list of 6-bit groups into bytes. -/
def b64Fold : List Nat → Nat → Nat → List Nat
  | [], _, _ => []
  | v :: vs, acc, bits =>
    let acc2 := acc * 64 + v
    let bits2 := bits + 6
    if 8 ≤ bits2 then
      (acc2 / 2 ^ (bits2 - 8)) :: b64Fold vs (acc2 % 2 ^ (bits2 - 8)) (bits2 - 8)
    else
      b64Fold vs acc2 bits2

def base64Decode (s : String) : Option (List Nat) :=
  let cs := s.data.filter (fun c => c ≠ '=')
  (cs.mapM b64CharVal).map (fun vs => b64Fold vs 0 0)

def bytesToAscii (bs : List Nat) : Option String :=
  (bs.mapM (fun b => if b < 128 then some (Char.ofNat b) else none)).map String.mk

def base64DecodeString (s : String) : Option String :=
  (base64Decode s).bind bytesToAscii

/-! ## Obfuscated constants of the source -/

def devDeviceKeyEnc : String := "dGVsZW1ldHJ5LmRldkRldmljZUlk"

/-- The four recognized storage.json keys, base64-encoded, in source order. -/
def vscode_keys : List String :=
  ["dGVsZW1ldHJ5Lm1hY2hpbmVJZA==", devDeviceKeyEnc,
   "dGVsZW1ldHJ5Lm1hY01hY2hpbmVJZA==", "c3RvcmFnZS5zZXJ2aWNlTWFjaGluZUlk"]

/-- The JetBrains identifier file names, base64-encoded, in source order. -/
def id_files : List String := ["UGVybWFuZW50RGV2aWNlSWQ=", "UGVybWFuZW50VXNlcklk"]

def machineIdEnc : String := "bWFjaGluZUlk"

def countQueryEnc : String :=
  "U0VMRUNUIENPVU5UKCopIEZST00gSXRlbVRhYmxlIFdIRVJFIGtleSBMSUtFICclYXVnbWVudCUnOw=="

def deleteQueryEnc : String :=
  "REVMRVRFIEZST00gSXRlbVRhYmxlIFdIRVJFIGtleSBMSUtFICclYXVnbWVudCUnOw=="

/-! ## Hex formatting and value shapes -/

def hexDigitChar (n : Nat) : Char :=
  if n < 10 then Char.ofNat (48 + n) else Char.ofNat (87 + n)

/-- Two lowercase hex digits of one byte, models the per-byte
width-2 zero-padded lower-hex formatting of the digest. -/
def byteToHex (b : Nat) : List Char :=
  [hexDigitChar (b / 16 % 16), hexDigitChar (b % 16)]

/-- Models the Rust lower-hex formatting of a digest byte array. -/
def formatLowerHex (bs : List Nat) : String :=
  String.mk (bs.flatMap byteToHex)

def isLowerHexChar (c : Char) : Bool :=
  ('0' ≤ c && c ≤ '9') || ('a' ≤ c && c ≤ 'f')

/-- A string has the textual shape of a (lowercase, hyphenated) UUID:
36 characters, hyphens exactly at positions 8, 13, 18, 23, lowercase
hex everywhere else.  This is the shape of the output of
Uuid::new_v4().to_string(). -/
def isUuidShaped (s : String) : Bool :=
  s.data.length == 36 &&
    (List.range 36).all (fun i =>
      if i = 8 ∨ i = 13 ∨ i = 18 ∨ i = 23 then s.data.getD i ' ' == '-'
      else isLowerHexChar (s.data.getD i ' '))

/-! ## String suffix test (models Rust str::ends_with) -/

def strEndsWith (s t : String) : Bool :=
  decide (t.data.length ≤ s.data.length ∧
    t.data = s.data.drop (s.data.length - t.data.length))

theorem strEndsWith_append (s t : String) : strEndsWith (s ++ t) t = true := by
  simp only [strEndsWith, String.data_append, decide_eq_true_eq]
  constructor
  · simp
  · rw [List.length_append, Nat.add_sub_cancel, List.drop_left]

theorem str_ne_append (s t : String) (h : t.data ≠ []) : s ≠ s ++ t := by
  intro he
  have hd : s.data = s.data ++ t.data := by
    conv_lhs => rw [he]
    exact String.data_append s t
  have := congrArg List.length hd
  simp only [List.length_append] at this
  have : t.data.length = 0 := by omega
  exact h (List.length_eq_zero.mp this)

/-! ## SHA-256

Models the external sha2 crate (`Sha256::digest`) per FIPS 180-4: the
crate's code is not part of this repository, so the digest is embedded
as the standard algorithm over byte lists, with 32-bit words as `Nat`
reduced mod `2 ^ 32`.  The claims below depend only on the digest being
32 bytes, each < 256; the concrete algorithm additionally lets every
statement be evaluated on concrete inputs. -/

namespace SHA256

/-- The 64 round constants, in decimal. -/
def K : List Nat :=
  [1116352408, 1899447441, 3049323471, 3921009573, 961987163,
   1508970993, 2453635748, 2870763221, 3624381080, 310598401,
   607225278, 1426881987, 1925078388, 2162078206, 2614888103,
   3248222580, 3835390401, 4022224774, 264347078, 604807628,
   770255983, 1249150122, 1555081692, 1996064986, 2554220882,
   2821834349, 2952996808, 3210313671, 3336571891, 3584528711,
   113926993, 338241895, 666307205, 773529912, 1294757372,
   1396182291, 1695183700, 1986661051, 2177026350, 2456956037,
   2730485921, 2820302411, 3259730800, 3345764771, 3516065817,
   3600352804, 4094571909, 275423344, 430227734, 506948616,
   659060556, 883997877, 958139571, 1322822218, 1537002063,
   1747873779, 1955562222, 2024104815, 2227730452, 2361852424,
   2428436474, 2756734187, 3204031479, 3329325298]

/-- The eight initial hash words, in decimal. -/
def H0 : List Nat :=
  [1779033703, 3144134277, 1013904242, 2773480762, 1359893119,
   2600822924, 528734635, 1541459225]

def M32 : Nat := 4294967296

def add32 (a b : Nat) : Nat := (a + b) % M32

def rotr (n x : Nat) : Nat := (x / 2 ^ n + x % 2 ^ n * 2 ^ (32 - n)) % M32

def shr (n x : Nat) : Nat := x / 2 ^ n

def ch (x y z : Nat) : Nat := (x &&& y) ^^^ ((x ^^^ (M32 - 1)) &&& z)

def maj (x y z : Nat) : Nat := (x &&& y) ^^^ (x &&& z) ^^^ (y &&& z)

def bigS0 (x : Nat) : Nat := rotr 2 x ^^^ rotr 13 x ^^^ rotr 22 x

def bigS1 (x : Nat) : Nat := rotr 6 x ^^^ rotr 11 x ^^^ rotr 25 x

def smallS0 (x : Nat) : Nat := rotr 7 x ^^^ rotr 18 x ^^^ shr 3 x

def smallS1 (x : Nat) : Nat := rotr 17 x ^^^ rotr 19 x ^^^ shr 10 x

/-- Append the 0x80 byte, zero padding, and the 64-bit big-endian bit
length, reaching a multiple of 64 bytes. -/
def padMessage (msg : List Nat) : List Nat :=
  let L := msg.length
  let zeros := (120 - (L + 1) % 64) % 64
  let bitLen := 8 * L
  msg ++ [128] ++ List.replicate zeros 0 ++
    (List.range 8).map (fun i => bitLen / 2 ^ (8 * (7 - i)) % 256)

/-- The consecutive 64-byte blocks of a padded message (whose length
is always a multiple of 64). -/
def toBlocks (bs : List Nat) : List (List Nat) :=
  (List.range (bs.length / 64)).map (fun i => (bs.drop (64 * i)).take 64)

/-- The 16 big-endian 32-bit words of one 64-byte block. -/
def toWords (block : List Nat) : List Nat :=
  (List.range 16).map (fun i =>
    block.getD (4 * i) 0 * 16777216 + block.getD (4 * i + 1) 0 * 65536 +
      block.getD (4 * i + 2) 0 * 256 + block.getD (4 * i + 3) 0)

/-- Extend the 16-word schedule by `n` further words. -/
def extendW : Nat → List Nat → List Nat
  | 0, w => w
  | n + 1, w =>
    let t := (smallS1 (w.getD (w.length - 2) 0) + w.getD (w.length - 7) 0 +
      smallS0 (w.getD (w.length - 15) 0) + w.getD (w.length - 16) 0) % M32
    extendW n (w ++ [t])

/-- One compression round on the eight working registers. -/
def roundStep (st : List Nat) (kw : Nat × Nat) : List Nat :=
  let a := st.getD 0 0
  let b := st.getD 1 0
  let c := st.getD 2 0
  let d := st.getD 3 0
  let e := st.getD 4 0
  let f := st.getD 5 0
  let g := st.getD 6 0
  let h := st.getD 7 0
  let t1 := (h + bigS1 e + ch e f g + kw.1 + kw.2) % M32
  let t2 := (bigS0 a + maj a b c) % M32
  [(t1 + t2) % M32, a, b, c, (d + t1) % M32, e, f, g]

def compress (H : List Nat) (block : List Nat) : List Nat :=
  let w := extendW 48 (toWords block)
  let st := (K.zip w).foldl roundStep H
  [add32 (H.getD 0 0) (st.getD 0 0), add32 (H.getD 1 0) (st.getD 1 0),
   add32 (H.getD 2 0) (st.getD 2 0), add32 (H.getD 3 0) (st.getD 3 0),
   add32 (H.getD 4 0) (st.getD 4 0), add32 (H.getD 5 0) (st.getD 5 0),
   add32 (H.getD 6 0) (st.getD 6 0), add32 (H.getD 7 0) (st.getD 7 0)]

def wordToBytes (w : Nat) : List Nat :=
  [w / 16777216 % 256, w / 65536 % 256, w / 256 % 256, w % 256]

def digest (msg : List Nat) : List Nat :=
  ((toBlocks (padMessage msg)).foldl compress H0).flatMap wordToBytes

theorem compress_length (H block : List Nat) : (compress H block).length = 8 := rfl

theorem flatMap_length_const {α β : Type} (f : α → List β) (k : Nat)
    (hf : ∀ a, (f a).length = k) (l : List α) :
    (l.flatMap f).length = k * l.length := by
  induction l with
  | nil => simp
  | cons a l ih => simp [List.flatMap_cons, hf a, ih, Nat.mul_add, Nat.add_comm]

theorem digest_length (msg : List Nat) : (digest msg).length = 32 := by
  have hfold : ∀ (bs : List (List Nat)) (H : List Nat), H.length = 8 →
      (bs.foldl compress H).length = 8 := by
    intro bs
    induction bs with
    | nil => intro H h; simpa using h
    | cons b bs ih =>
      intro H _
      exact ih (compress H b) (compress_length H b)
  have h8 : ((toBlocks (padMessage msg)).foldl compress H0).length = 8 :=
    hfold _ H0 rfl
  simp only [digest]
  rw [flatMap_length_const wordToBytes 4 (fun w => rfl), h8]

theorem digest_bytes_lt (msg : List Nat) :
    ∀ b ∈ digest msg, b < 256 := by
  intro b hb
  simp only [digest, List.mem_flatMap] at hb
  obtain ⟨w, _, hw⟩ := hb
  simp only [wordToBytes, List.mem_cons, List.not_mem_nil, or_false] at hw
  rcases hw with h | h | h | h <;> subst h <;> exact Nat.mod_lt _ (by norm_num)

end SHA256

/-- The hashed-identifier value of the JSON updater: the lower-hex
rendering of the SHA-256 digest of the 16 bytes of a freshly generated
UUID. -/
def hashedIdentifier (uuidBytes : List Nat) : String :=
  formatLowerHex (SHA256.digest uuidBytes)

theorem formatLowerHex_length (bs : List Nat) :
    (formatLowerHex bs).length = 2 * bs.length := by
  simp only [formatLowerHex, String.length_mk]
  rw [SHA256.flatMap_length_const byteToHex 2 (fun b => rfl)]

theorem isLowerHexChar_hexDigitChar (n : Nat) :
    isLowerHexChar (hexDigitChar (n % 16)) = true := by
  have h : n % 16 < 16 := Nat.mod_lt _ (by norm_num)
  have key : ∀ m, m < 16 → isLowerHexChar (hexDigitChar m) = true := by decide
  exact key _ h

theorem formatLowerHex_chars (bs : List Nat) :
    ∀ c ∈ (formatLowerHex bs).data, isLowerHexChar c = true := by
  intro c hc
  simp only [formatLowerHex, List.mem_flatMap] at hc
  obtain ⟨b, _, hb⟩ := hc
  simp only [byteToHex, List.mem_cons, List.not_mem_nil, or_false] at hb
  rcases hb with h | h <;> subst h
  · have : b / 16 % 16 < 16 := Nat.mod_lt _ (by norm_num)
    exact isLowerHexChar_hexDigitChar _
  · exact isLowerHexChar_hexDigitChar b

theorem hashedIdentifier_length (uuidBytes : List Nat) :
    (hashedIdentifier uuidBytes).length = 64 := by
  simp [hashedIdentifier, formatLowerHex_length, SHA256.digest_length]

theorem hashedIdentifier_chars (uuidBytes : List Nat) :
    ∀ c ∈ (hashedIdentifier uuidBytes).data, isLowerHexChar c = true :=
  formatLowerHex_chars _

/-! ## JSON documents

`serde_json::Map<String, Value>` is embedded as an association list of
string keys and JSON values; `insert` replaces the value of an existing
key and otherwise adds the binding, which agrees with map insertion up
to iteration order (irrelevant to every claim, which are all stated via
`lookup`).  JSON values are kept fully general so that unrecognized
keys may carry any value. -/

inductive JValue where
  | str : String → JValue
  | num : Int → JValue
  | bool : Bool → JValue
  | null : JValue
  | arr : List JValue → JValue
  | obj : List (String × JValue) → JValue

abbrev JMap := List (String × JValue)

def JMap.lookup (k : String) : JMap → Option JValue
  | [] => none
  | (k2, v) :: rest => if k2 = k then some v else JMap.lookup k rest

def JMap.insert (m : JMap) (k : String) (v : JValue) : JMap :=
  match m with
  | [] => [(k, v)]
  | (k2, v2) :: rest => if k2 = k then (k, v) :: rest else (k2, v2) :: JMap.insert rest k v

theorem JMap.lookup_insert_self (m : JMap) (k : String) (v : JValue) :
    JMap.lookup k (m.insert k v) = some v := by
  induction m with
  | nil => simp [JMap.insert, JMap.lookup]
  | cons kv rest ih =>
    obtain ⟨k2, v2⟩ := kv
    by_cases h : k2 = k
    · simp [JMap.insert, h, JMap.lookup]
    · simp [JMap.insert, h, JMap.lookup, ih]

theorem JMap.lookup_insert_ne (m : JMap) (k k2 : String) (v : JValue)
    (h : k2 ≠ k) : JMap.lookup k (m.insert k2 v) = JMap.lookup k m := by
  induction m with
  | nil => simp [JMap.insert, JMap.lookup, h]
  | cons kv rest ih =>
    obtain ⟨k3, v3⟩ := kv
    by_cases h3 : k3 = k2
    · subst h3
      simp [JMap.insert, JMap.lookup, h]
    · by_cases hk : k3 = k
      · simp [JMap.insert, h3, JMap.lookup, hk, Ne.symm h]
      · simp [JMap.insert, h3, JMap.lookup, hk, ih]

/-- Projection used to state theorems: the string stored under a key,
when the key holds a JSON string. -/
def lookupStr (k : String) (m : JMap) : Option String :=
  match JMap.lookup k m with
  | some (JValue.str s) => some s
  | _ => none

/-! ## The JSON store updater (`update_vscode_files`, storage.json part)

The two random draws the source can make per key (a fresh UUID rendered
as a string, or the SHA-256 of a fresh UUID's 16 bytes) are modelled by
a supply function giving, for the i-th loop iteration, the string form
and the byte form of the UUID generated in that iteration. -/

/-- New value generated for the i-th recognized key: the raw UUID
string for the dev-device-id key, the hashed identifier otherwise. -/
def genNewValue (supply : Nat → String × List Nat) (i : Nat)
    (key_encoded : String) : String :=
  if key_encoded = devDeviceKeyEnc then (supply i).1
  else hashedIdentifier (supply i).2

/-- The per-key loop of `update_vscode_files`: each encoded key is
base64-decoded (a decode failure propagates as `none`, the source's
`?`), and the decoded key is bound to the freshly generated value. -/
def updateKeys (supply : Nat → String × List Nat) :
    Nat → List String → JMap → Option JMap
  | _, [], data => some data
  | i, ke :: rest, data =>
    match base64DecodeString ke with
    | none => none
    | some key =>
      updateKeys supply (i + 1) rest
        (data.insert key (JValue.str (genNewValue supply i ke)))

/-- The storage.json mutation of `update_vscode_files`: run the key
loop over the four fixed recognized keys. -/
def update_storage_json (data : JMap) (supply : Nat → String × List Nat) :
    Option JMap :=
  updateKeys supply 0 vscode_keys data

/-- The four recognized keys in decoded form, in source order. -/
def decodedVscodeKeys : List String :=
  ["telemetry.machineId", "telemetry.devDeviceId",
   "telemetry.macMachineId", "storage.serviceMachineId"]

/-- The document produced by the key loop, written out explicitly. -/
def storageAfter (data : JMap) (supply : Nat → String × List Nat) : JMap :=
  ((((data.insert "telemetry.machineId"
        (JValue.str (hashedIdentifier (supply 0).2))).insert
      "telemetry.devDeviceId" (JValue.str (supply 1).1)).insert
    "telemetry.macMachineId" (JValue.str (hashedIdentifier (supply 2).2))).insert
    "storage.serviceMachineId" (JValue.str (hashedIdentifier (supply 3).2)))

theorem update_storage_json_eq (data : JMap) (supply : Nat → String × List Nat) :
    update_storage_json data supply = some (storageAfter data supply) := rfl

/-! ## `update_vscode_files`, full operation

The filesystem is abstracted to the inputs the function inspects —
whether `<path>/storage.json` exists, the parse of its content
(`none` models an unreadable or malformed file, turned into the empty
object by the source), whether the candidate path is itself a regular
file — plus outcome flags for the fallible write, id-file update and
lock steps.  The returned trace lists every mutating action attempted,
in order. -/

inductive VsAction where
  | writeStorage (path : String) (content : JMap)
  | updateIdFile (path : String)
  | lockFile (path : String)

def update_vscode_files (path : String) (storageJsonExists : Bool)
    (readParse : Option JMap) (supply : Nat → String × List Nat)
    (writeOk : Bool) (isFile : Bool) (idFileOk : Bool) (lockOk : Bool) :
    Except String Unit × List VsAction :=
  let storagePath := path ++ "/storage.json"
  let step1 : Except String Unit × List VsAction :=
    if storageJsonExists then
      let data : JMap := readParse.getD []
      match update_storage_json data supply with
      | none => (Except.error "decode error", [])
      | some newData =>
        if writeOk then (Except.ok (), [VsAction.writeStorage storagePath newData])
        else (Except.error "write error", [VsAction.writeStorage storagePath newData])
    else (Except.ok (), [])
  match step1.1 with
  | Except.error e => (Except.error e, step1.2)
  | Except.ok _ =>
    if isFile then
      if idFileOk then
        if lockOk then
          (Except.ok (), step1.2 ++ [VsAction.updateIdFile path, VsAction.lockFile path])
        else
          (Except.error "lock error",
            step1.2 ++ [VsAction.updateIdFile path, VsAction.lockFile path])
      else (Except.error "id file error", step1.2 ++ [VsAction.updateIdFile path])
    else (Except.ok (), step1.2)

/-! ## `lock_file`

Environment: whether the path exists, the platform, and the outcomes of
the two in-process permission calls.  External commands (attrib /
chmod / chflags) have their status ignored by the source, so only their
invocation is recorded; the metadata read is not a mutation and gets no
action. -/

inductive LockAction where
  | attribCmd (path : String)
  | chmodCmd (path : String)
  | chflagsCmd (path : String)
  | setReadonly (path : String)

def lockErrMsg (path : String) : String :=
  "File doesn" ++ String.mk [Char.ofNat 39] ++ "t exist, can" ++
    String.mk [Char.ofNat 39] ++ "t lock: " ++ path

def lock_file (windows macos : Bool) (pexists : Bool)
    (metadataOk setPermsOk : Bool) (path : String) :
    Except String Unit × List LockAction :=
  if pexists = false then
    (Except.error (lockErrMsg path), [])
  else
    let cmds : List LockAction :=
      if windows then [LockAction.attribCmd path]
      else [LockAction.chmodCmd path] ++
        (if macos then [LockAction.chflagsCmd path] else [])
    if macos then (Except.ok (), cmds)
    else if metadataOk = false then (Except.error "metadata error", cmds)
    else if setPermsOk = false then
      (Except.error "set permissions error", cmds ++ [LockAction.setReadonly path])
    else (Except.ok (), cmds ++ [LockAction.setReadonly path])

/-! ## `get_jetbrains_config_dir`

The three platform roots (configuration, home, data) are `Option`
strings as returned by the dirs crate; path join is rendered as string
concatenation with a separator; existence is an abstract predicate. -/

def get_jetbrains_config_dir (config_dir home_dir data_dir : Option String)
    (pexists : String → Bool) : Option String :=
  (([config_dir, home_dir, data_dir].filterMap id).map
    (fun base_dir => base_dir ++ "/JetBrains")).find? pexists

/-! ## `clean_vscode_database`

The storage directory's database files are abstracted to: an existence
predicate on file names, a success flag per file covering the
connection/query steps (`Connection::open`, the prepared count query,
the delete), and a row map giving the `key` column of the ItemTable
rows of each file.  The count query counts — and the delete query
removes — exactly the rows whose key satisfies the fixed
LIKE-pattern predicate `p` (`key LIKE` the percent-quoted marker
`augment`, see `clean_queries_decode`); the SQL engine itself is
external, so `p` is a parameter.  The result records the new row map,
the files opened, the (file, pre-count) reports and the files on which
a delete query was executed, in order. -/

structure CleanResult where
  result : Except String Unit
  rows : String → List String
  opened : List String
  reports : List (String × Nat)
  deletes : List String

/-- The pre-count of the count query on one file: how many ItemTable
rows have a key matching the LIKE pattern. -/
def cleanCount (p : String → Bool) (rows : String → List String)
    (file_name : String) : Nat :=
  ((rows file_name).filter p).length

/-- The row map after the conditional delete query on one file: when
the pre-count is positive the matching rows of that file are removed,
otherwise no delete runs and the map is untouched. -/
def cleanRows2 (p : String → Bool) (rows : String → List String)
    (file_name : String) : String → List String :=
  if 0 < cleanCount p rows file_name then
    fun f => if f = file_name then (rows file_name).filter (fun k => !(p k)) else rows f
  else rows

/-- The delete-query trace of one file: a delete is executed exactly
when the pre-count is positive. -/
def cleanDel (p : String → Bool) (rows : String → List String)
    (file_name : String) : List String :=
  if 0 < cleanCount p rows file_name then [file_name] else []

def clean_vscode_database (p : String → Bool) (fexists : String → Bool)
    (dbOk : String → Bool) (rows : String → List String) (file_name : String) :
    CleanResult :=
  if fexists file_name = false then
    ⟨Except.ok (), rows, [], [], []⟩
  else if dbOk file_name = false then
    ⟨Except.error "db error", rows, [file_name], [], []⟩
  else if strEndsWith file_name ".backup" = true then
    ⟨Except.ok (), cleanRows2 p rows file_name, [file_name],
      [(file_name, cleanCount p rows file_name)], cleanDel p rows file_name⟩
  else
    let r := clean_vscode_database p fexists dbOk
      (cleanRows2 p rows file_name) (file_name ++ ".backup")
    ⟨r.result, r.rows, file_name :: r.opened,
      (file_name, cleanCount p rows file_name) :: r.reports,
      cleanDel p rows file_name ++ r.deletes⟩
termination_by (if strEndsWith file_name ".backup" = true then 0 else 1)
decreasing_by
  rename_i hends
  simp [strEndsWith_append, hends]

theorem clean_eq_absent (p fexists dbOk : String → Bool)
    (rows : String → List String) (f : String) (h : fexists f = false) :
    clean_vscode_database p fexists dbOk rows f =
      ⟨Except.ok (), rows, [], [], []⟩ := by
  rw [clean_vscode_database]
  simp [h]

theorem clean_eq_dbfail (p fexists dbOk : String → Bool)
    (rows : String → List String) (f : String)
    (h1 : fexists f = true) (h2 : dbOk f = false) :
    clean_vscode_database p fexists dbOk rows f =
      ⟨Except.error "db error", rows, [f], [], []⟩ := by
  rw [clean_vscode_database]
  simp [h1, h2]

theorem clean_eq_last (p fexists dbOk : String → Bool)
    (rows : String → List String) (f : String)
    (h1 : fexists f = true) (h2 : dbOk f = true)
    (h3 : strEndsWith f ".backup" = true) :
    clean_vscode_database p fexists dbOk rows f =
      ⟨Except.ok (), cleanRows2 p rows f, [f],
        [(f, cleanCount p rows f)], cleanDel p rows f⟩ := by
  rw [clean_vscode_database]
  simp [h1, h2, h3]

theorem clean_eq_step (p fexists dbOk : String → Bool)
    (rows : String → List String) (f : String)
    (h1 : fexists f = true) (h2 : dbOk f = true)
    (h3 : strEndsWith f ".backup" = false) :
    clean_vscode_database p fexists dbOk rows f =
      ⟨(clean_vscode_database p fexists dbOk (cleanRows2 p rows f) (f ++ ".backup")).result,
       (clean_vscode_database p fexists dbOk (cleanRows2 p rows f) (f ++ ".backup")).rows,
       f :: (clean_vscode_database p fexists dbOk (cleanRows2 p rows f) (f ++ ".backup")).opened,
       (f, cleanCount p rows f) ::
         (clean_vscode_database p fexists dbOk (cleanRows2 p rows f) (f ++ ".backup")).reports,
       cleanDel p rows f ++
         (clean_vscode_database p fexists dbOk (cleanRows2 p rows f) (f ++ ".backup")).deletes⟩ := by
  rw [clean_vscode_database]
  simp [h1, h2, h3]

/-- The decoded count and delete queries share the fixed
`WHERE key LIKE` percent-quoted `augment` predicate. -/
theorem clean_queries_decode :
    base64DecodeString countQueryEnc =
      some ("SELECT COUNT(*) FROM ItemTable WHERE key LIKE " ++
        String.mk [Char.ofNat 39] ++ "%augment%" ++ String.mk [Char.ofNat 39] ++ ";") ∧
    base64DecodeString deleteQueryEnc =
      some ("DELETE FROM ItemTable WHERE key LIKE " ++
        String.mk [Char.ofNat 39] ++ "%augment%" ++ String.mk [Char.ofNat 39] ++ ";") :=
  ⟨rfl, rfl⟩

/-! ## `run`

The probing results of the two application families
(`get_jetbrains_config_dir`, `get_vscode_files`) and the per-target
processing steps are parameters; the error type distinguishes the
aggregate no-installations failure, which the source constructs at a
single place, from errors propagated out of processing steps.  The
base64 decodes the source performs along the way are executed for
real; a decode failure propagates like any step error. -/

inductive RunError (E : Type) where
  | noInstallations : RunError E
  | stepFailed : E → RunError E

/-- Sequential per-target loop with the source's first-error abort. -/
def processAll {E : Type} (step : String → Except E Unit) :
    List String → Except E Unit
  | [] => Except.ok ()
  | x :: xs =>
    match step x with
    | Except.error e => Except.error e
    | Except.ok _ => processAll step xs

def run {E : Type} (decodeFailed : E)
    (jetbrains_dir : Option String) (vscode_dirs : Option (List String))
    (jbFileStep : String → Except E Unit) (vsDirStep : String → Except E Unit) :
    Except (RunError E) Unit :=
  let jbPart : Except (RunError E) Bool :=
    match jetbrains_dir with
    | none => Except.ok false
    | some dir =>
      match id_files.mapM base64DecodeString with
      | none => Except.error (RunError.stepFailed decodeFailed)
      | some names =>
        match processAll (fun n => jbFileStep (dir ++ "/" ++ n)) names with
        | Except.error e => Except.error (RunError.stepFailed e)
        | Except.ok _ => Except.ok true
  match jbPart with
  | Except.error e => Except.error e
  | Except.ok jbFound =>
    match base64DecodeString machineIdEnc with
    | none => Except.error (RunError.stepFailed decodeFailed)
    | some _ =>
      match vscode_dirs with
      | none =>
        if jbFound then Except.ok () else Except.error RunError.noInstallations
      | some dirs =>
        match base64DecodeString countQueryEnc, base64DecodeString deleteQueryEnc with
        | some _, some _ =>
          match processAll vsDirStep dirs with
          | Except.error e => Except.error (RunError.stepFailed e)
          | Except.ok _ => Except.ok ()
        | _, _ => Except.error (RunError.stepFailed decodeFailed)

/-! ## Auxiliary list lemmas -/

theorem filter_not_length {α : Type} (p : α → Bool) (l : List α) :
    (l.filter (fun k => !(p k))).length + (l.filter p).length = l.length := by
  induction l with
  | nil => simp
  | cons a l ih =>
    by_cases h : p a = true
    · simp [List.filter_cons, h]
      omega
    · have h2 : p a = false := by
        cases hpa : p a
        · rfl
        · exact absurd hpa h
      simp [List.filter_cons, h2]
      omega

theorem filter_filter_not {α : Type} (p : α → Bool) (l : List α) :
    (l.filter (fun k => !(p k))).filter p = [] := by
  induction l with
  | nil => simp
  | cons a l ih =>
    by_cases h : p a = true
    · simp [List.filter_cons, h, ih]
    · have h2 : p a = false := by
        cases hpa : p a
        · rfl
        · exact absurd hpa h
      simp [List.filter_cons, h2, ih]

/-! ## Behaviour of the cleaner on names already ending in .backup -/

theorem cleanRows2_ne (p : String → Bool) (rows : String → List String)
    (f g : String) (hg : g ≠ f) : cleanRows2 p rows f g = rows g := by
  unfold cleanRows2
  by_cases hn : 0 < cleanCount p rows f
  · simp [hn, hg]
  · simp [hn]

theorem clean_of_endsWith (p fexists dbOk : String → Bool)
    (rows : String → List String) (f : String)
    (h : strEndsWith f ".backup" = true) :
    (∀ g, g ≠ f → (clean_vscode_database p fexists dbOk rows f).rows g = rows g) ∧
    (∀ g ∈ (clean_vscode_database p fexists dbOk rows f).deletes, g = f) ∧
    (clean_vscode_database p fexists dbOk rows f).opened.length ≤ 1 := by
  cases he : fexists f with
  | false =>
    rw [clean_eq_absent p fexists dbOk rows f he]
    simp
  | true =>
    cases hd : dbOk f with
    | false =>
      rw [clean_eq_dbfail p fexists dbOk rows f he hd]
      simp
    | true =>
      rw [clean_eq_last p fexists dbOk rows f he hd h]
      refine ⟨fun g hg => cleanRows2_ne p rows f g hg, ?_, by simp⟩
      intro g hg
      unfold cleanDel at hg
      by_cases hn : 0 < cleanCount p rows f
      · simp [hn] at hg
        exact hg
      · simp [hn] at hg

theorem clean_opened_le_two (p fexists dbOk : String → Bool)
    (rows : String → List String) (f : String) :
    (clean_vscode_database p fexists dbOk rows f).opened.length ≤ 2 := by
  cases he : fexists f with
  | false =>
    rw [clean_eq_absent p fexists dbOk rows f he]
    simp
  | true =>
    cases hd : dbOk f with
    | false =>
      rw [clean_eq_dbfail p fexists dbOk rows f he hd]
      simp
    | true =>
      cases hb : strEndsWith f ".backup" with
      | true =>
        rw [clean_eq_last p fexists dbOk rows f he hd hb]
        simp
      | false =>
        rw [clean_eq_step p fexists dbOk rows f he hd hb]
        have hrec := (clean_of_endsWith p fexists dbOk (cleanRows2 p rows f)
          (f ++ ".backup") (strEndsWith_append f ".backup")).2.2
        simp only [List.length_cons]
        omega

theorem cleanRows2_self_pos (p : String → Bool) (rows : String → List String)
    (f : String) (hn : 0 < cleanCount p rows f) :
    cleanRows2 p rows f f = (rows f).filter (fun k => !(p k)) := by
  unfold cleanRows2
  rw [if_pos hn]
  simp

theorem cleanRows2_zero (p : String → Bool) (rows : String → List String)
    (f : String) (hn : cleanCount p rows f = 0) :
    cleanRows2 p rows f = rows := by
  unfold cleanRows2
  rw [if_neg (by omega)]

theorem cleanDel_pos (p : String → Bool) (rows : String → List String)
    (f : String) (hn : 0 < cleanCount p rows f) :
    cleanDel p rows f = [f] := by
  unfold cleanDel
  rw [if_pos hn]

theorem cleanDel_zero (p : String → Bool) (rows : String → List String)
    (f : String) (hn : cleanCount p rows f = 0) :
    cleanDel p rows f = [] := by
  unfold cleanDel
  rw [if_neg (by omega)]

/-! ## Claim theorems -/

/-- C2: `run` reports the aggregate no-installations failure exactly
when neither the JetBrains configuration directory nor any VSCode
candidate path was found; whenever at least one family was located the
aggregate failure is never the result, whatever the outcomes of the
per-target processing steps. -/
theorem run_aggregate_failure_iff_nothing_found :
    ∀ (E : Type) (decodeFailed : E) (jetbrains_dir : Option String)
      (vscode_dirs : Option (List String))
      (jbFileStep vsDirStep : String → Except E Unit),
      (run decodeFailed jetbrains_dir vscode_dirs jbFileStep vsDirStep =
        Except.error RunError.noInstallations) ↔
      (jetbrains_dir = none ∧ vscode_dirs = none) := by
  intro E decodeFailed jetbrains_dir vscode_dirs jbFileStep vsDirStep
  have hids : id_files.mapM base64DecodeString =
      some ["PermanentDeviceId", "PermanentUserId"] := rfl
  have hmid : base64DecodeString machineIdEnc = some "machineId" := rfl
  cases jetbrains_dir with
  | none =>
    cases vscode_dirs with
    | none => simp [run, hmid]
    | some dirs =>
      simp only [run, hids, hmid, clean_queries_decode.1, clean_queries_decode.2]
      cases hv : processAll vsDirStep dirs <;> simp
  | some dir =>
    cases vscode_dirs with
    | none =>
      simp only [run, hids, hmid]
      cases hj : processAll (fun n => jbFileStep (dir ++ "/" ++ n))
          ["PermanentDeviceId", "PermanentUserId"] <;> simp
    | some dirs =>
      simp only [run, hids, hmid, clean_queries_decode.1, clean_queries_decode.2]
      cases hj : processAll (fun n => jbFileStep (dir ++ "/" ++ n))
          ["PermanentDeviceId", "PermanentUserId"]
      · simp
      · cases hv : processAll vsDirStep dirs <;> simp

/-- C6: `lock_file` on a nonexistent path fails with the
path-does-not-exist error and attempts no mutation at all, on every
platform and whatever the would-be outcomes of the permission steps. -/
theorem lock_file_nonexistent_error_no_mutation :
    ∀ (windows macos metadataOk setPermsOk : Bool) (path : String),
      lock_file windows macos false metadataOk setPermsOk path =
        (Except.error (lockErrMsg path), []) :=
  fun _ _ _ _ _ => rfl

/-- C7: JetBrains path resolution walks the roots in the fixed order
configuration, home, data, joining each with JetBrains, and returns the
first existing such directory; with three roots of which only the
second contains a JetBrains directory, exactly that directory is
returned. -/
theorem jetbrains_dir_second_root :
    ∀ (r1 r2 r3 : String) (pexists : String → Bool),
      pexists (r1 ++ "/JetBrains") = false →
      pexists (r2 ++ "/JetBrains") = true →
      pexists (r3 ++ "/JetBrains") = false →
      get_jetbrains_config_dir (some r1) (some r2) (some r3) pexists =
        some (r2 ++ "/JetBrains") := by
  intro r1 r2 r3 pexists h1 h2 _
  simp [get_jetbrains_config_dir, List.find?, h1, h2]

theorem jetbrains_dir_second_root_witness :
    ((fun s => s == "h/JetBrains") ("c" ++ "/JetBrains") = false) ∧
    ((fun s => s == "h/JetBrains") ("h" ++ "/JetBrains") = true) ∧
    ((fun s => s == "h/JetBrains") ("d" ++ "/JetBrains") = false) ∧
    get_jetbrains_config_dir (some "c") (some "h") (some "d")
      (fun s => s == "h/JetBrains") = some ("h" ++ "/JetBrains") :=
  ⟨by decide, by decide, by decide,
    jetbrains_dir_second_root "c" "h" "d" (fun s => s == "h/JetBrains")
      (by decide) (by decide) (by decide)⟩

/-- C8: every hashed-identifier value — the value generated for any
recognized key other than the dev-device-id key — is the full 64
character lowercase hexadecimal SHA-256 digest, leading zeros
included, for every possible sequence of generated UUID bytes. -/
theorem hashed_values_are_fixed_length_lowercase_hex :
    ∀ (supply : Nat → String × List Nat) (i : Nat) (key_encoded : String),
      key_encoded ≠ devDeviceKeyEnc →
      genNewValue supply i key_encoded = hashedIdentifier (supply i).2 ∧
      (genNewValue supply i key_encoded).length = 64 ∧
      ∀ c ∈ (genNewValue supply i key_encoded).data, isLowerHexChar c = true := by
  intro supply i key_encoded h
  have hg : genNewValue supply i key_encoded = hashedIdentifier (supply i).2 := by
    simp [genNewValue, h]
  exact ⟨hg, by rw [hg]; exact hashedIdentifier_length _,
    by rw [hg]; exact hashedIdentifier_chars _⟩

theorem hashed_values_are_fixed_length_lowercase_hex_witness :
    ("dGVsZW1ldHJ5Lm1hY2hpbmVJZA==" ≠ devDeviceKeyEnc) ∧
    ((fun _ => ("u", [0])) : Nat → String × List Nat) 0 = ("u", [0]) ∧
    (genNewValue (fun _ => ("u", [0])) 0 "dGVsZW1ldHJ5Lm1hY2hpbmVJZA==" =
        hashedIdentifier [0] ∧
      (genNewValue (fun _ => ("u", [0])) 0 "dGVsZW1ldHJ5Lm1hY2hpbmVJZA==").length = 64 ∧
      ∀ c ∈ (genNewValue (fun _ => ("u", [0])) 0 "dGVsZW1ldHJ5Lm1hY2hpbmVJZA==").data,
        isLowerHexChar c = true) :=
  ⟨by decide, rfl,
    hashed_values_are_fixed_length_lowercase_hex (fun _ => ("u", [0])) 0
      "dGVsZW1ldHJ5Lm1hY2hpbmVJZA==" (by decide)⟩

/-- C4: the JSON store updater preserves every key outside the four
recognized keys with its value untouched, and the document written back
is exactly the input document with the four recognized keys replaced. -/
theorem update_preserves_unrecognized_keys :
    ∀ (data : JMap) (supply : Nat → String × List Nat) (k : String)
      (path : String) (idFileOk lockOk : Bool),
      k ∉ decodedVscodeKeys →
      update_storage_json data supply = some (storageAfter data supply) ∧
      JMap.lookup k (storageAfter data supply) = JMap.lookup k data ∧
      update_vscode_files path true (some data) supply true false idFileOk lockOk =
        (Except.ok (),
          [VsAction.writeStorage (path ++ "/storage.json") (storageAfter data supply)]) := by
  intro data supply k path idFileOk lockOk hk
  simp only [decodedVscodeKeys, List.mem_cons, List.not_mem_nil, or_false] at hk
  push_neg at hk
  obtain ⟨h1, h2, h3, h4⟩ := hk
  refine ⟨rfl, ?_, rfl⟩
  simp only [storageAfter]
  rw [JMap.lookup_insert_ne _ _ _ _ (Ne.symm h4),
      JMap.lookup_insert_ne _ _ _ _ (Ne.symm h3),
      JMap.lookup_insert_ne _ _ _ _ (Ne.symm h2),
      JMap.lookup_insert_ne _ _ _ _ (Ne.symm h1)]

/-- C9: after the update, every one of the four recognized keys maps to
a JSON string value, whatever value (of whatever JSON type) the input
document held under it. -/
theorem update_recognized_keys_map_to_strings :
    ∀ (data : JMap) (supply : Nat → String × List Nat) (k : String),
      k ∈ decodedVscodeKeys →
      update_storage_json data supply = some (storageAfter data supply) ∧
      ∃ s, JMap.lookup k (storageAfter data supply) = some (JValue.str s) := by
  intro data supply k hk
  refine ⟨rfl, ?_⟩
  simp only [decodedVscodeKeys, List.mem_cons, List.not_mem_nil, or_false] at hk
  rcases hk with h | h | h | h <;> subst h
  · refine ⟨hashedIdentifier (supply 0).2, ?_⟩
    simp only [storageAfter]
    rw [JMap.lookup_insert_ne _ _ _ _ (by decide),
        JMap.lookup_insert_ne _ _ _ _ (by decide),
        JMap.lookup_insert_ne _ _ _ _ (by decide)]
    exact JMap.lookup_insert_self _ _ _
  · refine ⟨(supply 1).1, ?_⟩
    simp only [storageAfter]
    rw [JMap.lookup_insert_ne _ _ _ _ (by decide),
        JMap.lookup_insert_ne _ _ _ _ (by decide)]
    exact JMap.lookup_insert_self _ _ _
  · refine ⟨hashedIdentifier (supply 2).2, ?_⟩
    simp only [storageAfter]
    rw [JMap.lookup_insert_ne _ _ _ _ (by decide)]
    exact JMap.lookup_insert_self _ _ _
  · exact ⟨hashedIdentifier (supply 3).2, JMap.lookup_insert_self _ _ _⟩

/-! ## Concrete inputs for the JSON updater claims -/

/-- The spec's example input document. -/
def exDoc : JMap :=
  [("foo", JValue.str "bar"), ("telemetry.machineId", JValue.str "old")]

/-- A concrete run of the random generator: the string and byte forms
of the UUID drawn at each loop iteration. -/
def exUuidList : List (String × List Nat) :=
  [("3f2a1b4c-5d6e-4f70-8a9b-0c1d2e3f4a5b",
    [63, 42, 27, 76, 93, 110, 79, 112, 138, 155, 12, 29, 46, 63, 74, 91]),
   ("9e8d7c6b-5a49-4382-b1a0-f9e8d7c6b5a4",
    [158, 141, 124, 107, 90, 73, 67, 130, 177, 160, 249, 232, 215, 198, 181, 164]),
   ("0123e4a6-89ab-4cde-8f01-23456789abcd",
    [1, 35, 228, 166, 137, 171, 76, 222, 143, 1, 35, 69, 103, 137, 171, 205]),
   ("fedcba98-7654-4321-8fed-cba987654321",
    [254, 220, 186, 152, 118, 84, 67, 33, 143, 237, 203, 169, 135, 101, 67, 33])]

def exSupply : Nat → String × List Nat := fun i => exUuidList.getD i ("", [])

theorem update_preserves_unrecognized_keys_witness :
    ("foo" ∉ decodedVscodeKeys) ∧
    (update_storage_json exDoc exSupply = some (storageAfter exDoc exSupply) ∧
     JMap.lookup "foo" (storageAfter exDoc exSupply) = JMap.lookup "foo" exDoc ∧
     update_vscode_files "home" true (some exDoc) exSupply true false true true =
       (Except.ok (),
         [VsAction.writeStorage ("home" ++ "/storage.json")
           (storageAfter exDoc exSupply)])) :=
  ⟨by decide,
    update_preserves_unrecognized_keys exDoc exSupply "foo" "home" true true (by decide)⟩

theorem update_recognized_keys_map_to_strings_witness :
    ("telemetry.machineId" ∈ decodedVscodeKeys) ∧
    (update_storage_json exDoc exSupply = some (storageAfter exDoc exSupply) ∧
     ∃ s, JMap.lookup "telemetry.machineId" (storageAfter exDoc exSupply) =
       some (JValue.str s)) :=
  ⟨by decide,
    update_recognized_keys_map_to_strings exDoc exSupply "telemetry.machineId" (by decide)⟩

/-- C1 counterexample: on the spec's example document, with a concrete
UUID-shaped random supply, the value the updater stores under
telemetry.machineId is the SHA-256 hex digest of the freshly drawn
UUID's bytes — a 64-character value that is not UUID-shaped — even
though the UUID string the generator drew is UUID-shaped; `foo` does
remain `"bar"`. -/
theorem machineId_value_not_uuid_shaped :
    lookupStr "telemetry.machineId" (storageAfter exDoc exSupply) =
      some (hashedIdentifier (exSupply 0).2) ∧
    update_storage_json exDoc exSupply = some (storageAfter exDoc exSupply) ∧
    lookupStr "foo" (storageAfter exDoc exSupply) = some "bar" ∧
    isUuidShaped (exSupply 0).1 = true ∧
    isUuidShaped (hashedIdentifier (exSupply 0).2) = false :=
  ⟨rfl, rfl, rfl, by decide, by decide⟩

/-- C1 (amended): on an input document containing foo ↦ "bar" and
telemetry.machineId ↦ "old", after the update foo still maps to "bar"
and telemetry.machineId maps to a fresh 64-character lowercase-hex
SHA-256 digest of a freshly generated random identifier (only the
dev-device-id key receives a raw UUID-shaped value). -/
theorem machineId_value_is_hex_digest :
    ∀ (supply : Nat → String × List Nat),
      update_storage_json exDoc supply = some (storageAfter exDoc supply) ∧
      lookupStr "foo" (storageAfter exDoc supply) = some "bar" ∧
      lookupStr "telemetry.machineId" (storageAfter exDoc supply) =
        some (hashedIdentifier (supply 0).2) ∧
      (hashedIdentifier (supply 0).2).length = 64 ∧
      ∀ c ∈ (hashedIdentifier (supply 0).2).data, isLowerHexChar c = true := by
  intro supply
  refine ⟨rfl, ?_, ?_, hashedIdentifier_length _, hashedIdentifier_chars _⟩
  · unfold lookupStr
    simp only [storageAfter]
    rw [JMap.lookup_insert_ne _ _ _ _ (by decide),
        JMap.lookup_insert_ne _ _ _ _ (by decide),
        JMap.lookup_insert_ne _ _ _ _ (by decide),
        JMap.lookup_insert_ne _ _ _ _ (by decide)]
    rfl
  · unfold lookupStr
    simp only [storageAfter]
    rw [JMap.lookup_insert_ne _ _ _ _ (by decide),
        JMap.lookup_insert_ne _ _ _ _ (by decide),
        JMap.lookup_insert_ne _ _ _ _ (by decide)]
    rw [JMap.lookup_insert_self]

/-- C10: `update_vscode_files` on a candidate directory with no
storage.json that is not itself a regular file returns success and
performs no filesystem mutation: empty action trace. -/
theorem update_vscode_files_absent_storage_no_mutation :
    ∀ (path : String) (readParse : Option JMap)
      (supply : Nat → String × List Nat) (writeOk idFileOk lockOk : Bool),
      update_vscode_files path false readParse supply writeOk false idFileOk lockOk =
        (Except.ok (), []) :=
  fun _ _ _ _ _ _ => rfl

/-- C3: with state.vscdb, state.vscdb.backup and
state.vscdb.backup.backup all present, the cleaner opens exactly the
first two files — the recursion appends .backup once and stops because
the name then already ends in .backup — and for every starting file
name whatsoever the number of files opened is bounded by 2. -/
theorem clean_backup_recursion_depth_two :
    ∀ (p fexists dbOk : String → Bool) (rows : String → List String),
      fexists "state.vscdb" = true → dbOk "state.vscdb" = true →
      fexists "state.vscdb.backup" = true → dbOk "state.vscdb.backup" = true →
      fexists "state.vscdb.backup.backup" = true →
      (clean_vscode_database p fexists dbOk rows "state.vscdb").opened =
        ["state.vscdb", "state.vscdb.backup"] ∧
      "state.vscdb.backup.backup" ∉
        (clean_vscode_database p fexists dbOk rows "state.vscdb").opened ∧
      ∀ (q ex2 db2 : String → Bool) (rs : String → List String) (f : String),
        (clean_vscode_database q ex2 db2 rs f).opened.length ≤ 2 := by
  intro p fexists dbOk rows h1 h2 h3 h4 _
  have hstep : strEndsWith "state.vscdb" ".backup" = false := by decide
  have hlast : strEndsWith "state.vscdb.backup" ".backup" = true := by decide
  have hopened : (clean_vscode_database p fexists dbOk rows "state.vscdb").opened =
      ["state.vscdb", "state.vscdb.backup"] := by
    rw [clean_eq_step p fexists dbOk rows "state.vscdb" h1 h2 hstep]
    rw [show "state.vscdb" ++ ".backup" = "state.vscdb.backup" from rfl]
    rw [clean_eq_last p fexists dbOk _ "state.vscdb.backup" h3 h4 hlast]
  refine ⟨hopened, ?_, fun q ex2 db2 rs f => clean_opened_le_two q ex2 db2 rs f⟩
  rw [hopened]
  decide

theorem clean_backup_recursion_depth_two_witness :
    ((fun g => decide (g = "state.vscdb" ∨ g = "state.vscdb.backup" ∨
        g = "state.vscdb.backup.backup")) "state.vscdb" = true) ∧
    ((fun _ => true) : String → Bool) "state.vscdb" = true ∧
    ((clean_vscode_database (fun _ => false)
        (fun g => decide (g = "state.vscdb" ∨ g = "state.vscdb.backup" ∨
          g = "state.vscdb.backup.backup"))
        (fun _ => true) (fun _ => []) "state.vscdb").opened =
          ["state.vscdb", "state.vscdb.backup"] ∧
      "state.vscdb.backup.backup" ∉
        (clean_vscode_database (fun _ => false)
          (fun g => decide (g = "state.vscdb" ∨ g = "state.vscdb.backup" ∨
            g = "state.vscdb.backup.backup"))
          (fun _ => true) (fun _ => []) "state.vscdb").opened ∧
      ∀ (q ex2 db2 : String → Bool) (rs : String → List String) (f : String),
        (clean_vscode_database q ex2 db2 rs f).opened.length ≤ 2) :=
  ⟨by decide, rfl,
    clean_backup_recursion_depth_two (fun _ => false)
      (fun g => decide (g = "state.vscdb" ∨ g = "state.vscdb.backup" ∨
        g = "state.vscdb.backup.backup"))
      (fun _ => true) (fun _ => [])
      (by decide) rfl (by decide) rfl (by decide)⟩

/-- C5: on an existing database file whose operations succeed, the
reported pre-count is the number of rows matching the pattern; when it
is positive exactly those rows are deleted (the file keeps precisely
its non-matching rows, so a second count would report 0), and when it
is 0 no delete query is executed and the rows are unchanged. -/
theorem clean_counts_and_deletes :
    ∀ (p fexists dbOk : String → Bool) (rows : String → List String) (f : String),
      fexists f = true → dbOk f = true →
      ((clean_vscode_database p fexists dbOk rows f).reports.head? =
        some (f, cleanCount p rows f)) ∧
      (0 < cleanCount p rows f →
        (clean_vscode_database p fexists dbOk rows f).rows f =
          (rows f).filter (fun k => !(p k)) ∧
        f ∈ (clean_vscode_database p fexists dbOk rows f).deletes ∧
        ((clean_vscode_database p fexists dbOk rows f).rows f).length +
          cleanCount p rows f = (rows f).length ∧
        cleanCount p (clean_vscode_database p fexists dbOk rows f).rows f = 0) ∧
      (cleanCount p rows f = 0 →
        (clean_vscode_database p fexists dbOk rows f).rows f = rows f ∧
        f ∉ (clean_vscode_database p fexists dbOk rows f).deletes) := by
  intro p fexists dbOk rows f h1 h2
  have hne : f ≠ f ++ ".backup" := str_ne_append f ".backup" (by decide)
  cases hb : strEndsWith f ".backup" with
  | true =>
    rw [clean_eq_last p fexists dbOk rows f h1 h2 hb]
    refine ⟨rfl, ?_, ?_⟩
    · intro hn
      refine ⟨cleanRows2_self_pos p rows f hn, ?_, ?_, ?_⟩
      · show f ∈ cleanDel p rows f
        rw [cleanDel_pos p rows f hn]
        exact List.mem_singleton.mpr rfl
      · show (cleanRows2 p rows f f).length + cleanCount p rows f = (rows f).length
        rw [cleanRows2_self_pos p rows f hn]
        exact filter_not_length p (rows f)
      · show ((cleanRows2 p rows f f).filter p).length = 0
        rw [cleanRows2_self_pos p rows f hn, filter_filter_not]
        rfl
    · intro hn
      refine ⟨?_, ?_⟩
      · show cleanRows2 p rows f f = rows f
        rw [cleanRows2_zero p rows f hn]
      · show f ∉ cleanDel p rows f
        rw [cleanDel_zero p rows f hn]
        exact List.not_mem_nil f
  | false =>
    rw [clean_eq_step p fexists dbOk rows f h1 h2 hb]
    have hrec := clean_of_endsWith p fexists dbOk (cleanRows2 p rows f)
      (f ++ ".backup") (strEndsWith_append f ".backup")
    have hrows : (clean_vscode_database p fexists dbOk (cleanRows2 p rows f)
        (f ++ ".backup")).rows f = cleanRows2 p rows f f := hrec.1 f hne
    refine ⟨rfl, ?_, ?_⟩
    · intro hn
      refine ⟨?_, ?_, ?_, ?_⟩
      · show (clean_vscode_database p fexists dbOk (cleanRows2 p rows f)
            (f ++ ".backup")).rows f = (rows f).filter (fun k => !(p k))
        rw [hrows, cleanRows2_self_pos p rows f hn]
      · show f ∈ cleanDel p rows f ++ (clean_vscode_database p fexists dbOk
            (cleanRows2 p rows f) (f ++ ".backup")).deletes
        rw [cleanDel_pos p rows f hn]
        exact List.mem_append_left _ (List.mem_singleton.mpr rfl)
      · show ((clean_vscode_database p fexists dbOk (cleanRows2 p rows f)
            (f ++ ".backup")).rows f).length + cleanCount p rows f = (rows f).length
        rw [hrows, cleanRows2_self_pos p rows f hn]
        exact filter_not_length p (rows f)
      · show (((clean_vscode_database p fexists dbOk (cleanRows2 p rows f)
            (f ++ ".backup")).rows f).filter p).length = 0
        rw [hrows, cleanRows2_self_pos p rows f hn, filter_filter_not]
        rfl
    · intro hn
      refine ⟨?_, ?_⟩
      · show (clean_vscode_database p fexists dbOk (cleanRows2 p rows f)
            (f ++ ".backup")).rows f = rows f
        rw [hrows, cleanRows2_zero p rows f hn]
      · show f ∉ cleanDel p rows f ++ (clean_vscode_database p fexists dbOk
            (cleanRows2 p rows f) (f ++ ".backup")).deletes
        rw [cleanDel_zero p rows f hn]
        intro hmem
        simp only [List.nil_append] at hmem
        exact hne (hrec.2.1 f hmem)

theorem clean_counts_and_deletes_witness :
    (((fun _ => true) : String → Bool) "state.vscdb" = true) ∧
    (((fun _ => true) : String → Bool) "state.vscdb" = true) ∧
    (((clean_vscode_database
          (fun k => decide (k = "augment.a" ∨ k = "augment.b" ∨ k = "augment.c"))
          (fun _ => true) (fun _ => true)
          (fun _ => ["augment.a", "augment.b", "augment.c", "other.x", "other.y"])
          "state.vscdb").reports.head? =
        some ("state.vscdb",
          cleanCount
            (fun k => decide (k = "augment.a" ∨ k = "augment.b" ∨ k = "augment.c"))
            (fun _ => ["augment.a", "augment.b", "augment.c", "other.x", "other.y"])
            "state.vscdb")) ∧
      (0 < cleanCount
          (fun k => decide (k = "augment.a" ∨ k = "augment.b" ∨ k = "augment.c"))
          (fun _ => ["augment.a", "augment.b", "augment.c", "other.x", "other.y"])
          "state.vscdb" →
        (clean_vscode_database
            (fun k => decide (k = "augment.a" ∨ k = "augment.b" ∨ k = "augment.c"))
            (fun _ => true) (fun _ => true)
            (fun _ => ["augment.a", "augment.b", "augment.c", "other.x", "other.y"])
            "state.vscdb").rows "state.vscdb" =
          (["augment.a", "augment.b", "augment.c", "other.x", "other.y"].filter
            (fun k =>
              !(decide (k = "augment.a" ∨ k = "augment.b" ∨ k = "augment.c")))) ∧
        "state.vscdb" ∈ (clean_vscode_database
            (fun k => decide (k = "augment.a" ∨ k = "augment.b" ∨ k = "augment.c"))
            (fun _ => true) (fun _ => true)
            (fun _ => ["augment.a", "augment.b", "augment.c", "other.x", "other.y"])
            "state.vscdb").deletes ∧
        ((clean_vscode_database
            (fun k => decide (k = "augment.a" ∨ k = "augment.b" ∨ k = "augment.c"))
            (fun _ => true) (fun _ => true)
            (fun _ => ["augment.a", "augment.b", "augment.c", "other.x", "other.y"])
            "state.vscdb").rows "state.vscdb").length +
          cleanCount
            (fun k => decide (k = "augment.a" ∨ k = "augment.b" ∨ k = "augment.c"))
            (fun _ => ["augment.a", "augment.b", "augment.c", "other.x", "other.y"])
            "state.vscdb" =
          (["augment.a", "augment.b", "augment.c", "other.x", "other.y"] :
            List String).length ∧
        cleanCount
          (fun k => decide (k = "augment.a" ∨ k = "augment.b" ∨ k = "augment.c"))
          (clean_vscode_database
            (fun k => decide (k = "augment.a" ∨ k = "augment.b" ∨ k = "augment.c"))
            (fun _ => true) (fun _ => true)
            (fun _ => ["augment.a", "augment.b", "augment.c", "other.x", "other.y"])
            "state.vscdb").rows "state.vscdb" = 0) ∧
      (cleanCount
          (fun k => decide (k = "augment.a" ∨ k = "augment.b" ∨ k = "augment.c"))
          (fun _ => ["augment.a", "augment.b", "augment.c", "other.x", "other.y"])
          "state.vscdb" = 0 →
        (clean_vscode_database
            (fun k => decide (k = "augment.a" ∨ k = "augment.b" ∨ k = "augment.c"))
            (fun _ => true) (fun _ => true)
            (fun _ => ["augment.a", "augment.b", "augment.c", "other.x", "other.y"])
            "state.vscdb").rows "state.vscdb" =
          ["augment.a", "augment.b", "augment.c", "other.x", "other.y"] ∧
        "state.vscdb" ∉ (clean_vscode_database
            (fun k => decide (k = "augment.a" ∨ k = "augment.b" ∨ k = "augment.c"))
            (fun _ => true) (fun _ => true)
            (fun _ => ["augment.a", "augment.b", "augment.c", "other.x", "other.y"])
            "state.vscdb").deletes)) :=
  ⟨rfl, rfl,
    clean_counts_and_deletes
      (fun k => decide (k = "augment.a" ∨ k = "augment.b" ∨ k = "augment.c"))
      (fun _ => true) (fun _ => true)
      (fun _ => ["augment.a", "augment.b", "augment.c", "other.x", "other.y"])
      "state.vscdb" rfl rfl⟩

end AugmentVip
